import Mathlib

set_option maxHeartbeats 1000000

/-!
Verification development for the shinji repository: the generic DAO layer
(`src/core/db/dao.py`, `src/core/db/exceptions.py`, `src/core/db/model.py`)
and the object encoder (`src/core/utils/encoders.py`).

Python runtime values that flow through the encoder and the DAO are embedded
as the inductive `Value`; dicts are association lists in insertion order,
entity instances are their attribute dictionaries (`vars(obj)`), pydantic
models carry their field mapping, the set of explicitly-set fields, and the
`json_encoders` mapping declared on their config.
-/

/-- A Python runtime value, as discriminated by the encoder's dispatch:
primitives (`str`/`int`/`bool`/`None`; a Python `bool` is an `int` instance, so
it passes the primitive `isinstance` check), dicts, sequences (list/set/
frozenset/tuple/generator all materialize to a list), pydantic `BaseModel`
instances, plain dataclass instances, values whose exact type has a registered
converter in `ENCODERS_BY_TYPE` (`vspecial ty enc` abstracts such a value
together with the converter's output `enc`; the per-class-family loop that
follows the exact-type lookup consults the same registry, so both are
represented by this one case), and other objects, viewable as a mapping
(`dict(obj)` succeeds giving `asDict`) or as their attribute dictionary
(`vars(obj)` succeeds giving `asVars`). An ORM entity is `vobj none (some
attrs)`: `dict(entity)` fails and `vars(entity)` returns its `__dict__`,
including the `_sa_instance_state` bookkeeping key. -/
inductive Value where
  | vstr (s : String)
  | vint (n : Int)
  | vbool (b : Bool)
  | vnone
  | vdict (entries : List (Value × Value))
  | vlist (elems : List Value)
  | vmodel (json_encoders : List (String × String)) (fields : List (String × Value))
      (fieldsSet : List String)
  | vdataclass (fields : List (String × Value))
  | vspecial (typeName : String) (enc : Value)
  | vobj (asDict : Option (List (Value × Value))) (asVars : Option (List (String × Value)))

open Value

mutual

/-- Boolean (structural) equality on embedded Python values; used only to
execute membership tests (Python's `in` on sets/dicts). -/
def Value.beq : Value → Value → Bool
  | .vstr a, .vstr b => a == b
  | .vint a, .vint b => a == b
  | .vbool a, .vbool b => a == b
  | .vnone, .vnone => true
  | .vdict a, .vdict b => Value.beqPairs a b
  | .vlist a, .vlist b => Value.beqList a b
  | .vmodel j1 f1 s1, .vmodel j2 f2 s2 => j1 == j2 && Value.beqNamed f1 f2 && s1 == s2
  | .vdataclass f1, .vdataclass f2 => Value.beqNamed f1 f2
  | .vspecial t1 e1, .vspecial t2 e2 => t1 == t2 && Value.beq e1 e2
  | .vobj d1 v1, .vobj d2 v2 => Value.beqOptPairs d1 d2 && Value.beqOptNamed v1 v2
  | _, _ => false

def Value.beqPairs : List (Value × Value) → List (Value × Value) → Bool
  | [], [] => true
  | (k1, v1) :: r1, (k2, v2) :: r2 =>
    Value.beq k1 k2 && Value.beq v1 v2 && Value.beqPairs r1 r2
  | _, _ => false

def Value.beqList : List Value → List Value → Bool
  | [], [] => true
  | x :: r1, y :: r2 => Value.beq x y && Value.beqList r1 r2
  | _, _ => false

def Value.beqNamed : List (String × Value) → List (String × Value) → Bool
  | [], [] => true
  | (k1, v1) :: r1, (k2, v2) :: r2 => k1 == k2 && Value.beq v1 v2 && Value.beqNamed r1 r2
  | _, _ => false

def Value.beqOptPairs : Option (List (Value × Value)) → Option (List (Value × Value)) → Bool
  | none, none => true
  | some a, some b => Value.beqPairs a b
  | _, _ => false

def Value.beqOptNamed : Option (List (String × Value)) → Option (List (String × Value)) → Bool
  | none, none => true
  | some a, some b => Value.beqNamed a b
  | _, _ => false

end

instance : BEq Value := ⟨Value.beq⟩

theorem value_beq_eq (x y : Value) : (x == y) = Value.beq x y := rfl

/-- Errors the encoder can raise: `TypeError` (a call with a keyword argument
the callee does not accept), `UnboundLocalError` (a local referenced before
assignment) and the `ValueError` of `jsonable_encoder`'s fallback (raised
when a value can be viewed neither as a mapping nor as an attribute set,
aggregating both failures). -/
inductive EncError where
  | typeError (msg : String)
  | unboundLocal (name : String)
  | valueError
deriving DecidableEq

/-- The keyword arguments threaded through `jsonable_encoder` /
`schema_encoder` / `dict_encoder` / `sequence_encoder` (src/core/utils/
encoders.py). `incl`/`excl` stand for the `include`/`exclude` sets (modelled
as lists of values with membership as the set test). Defaults mirror the
Python signatures: `by_alias=True`, the four toggles `False`, and
`custom_encoder=None` (a falsy/absent mapping, modelled as the empty one). -/
structure EncArgs where
  incl : Option (List Value) := none
  excl : Option (List Value) := none
  by_alias : Bool := true
  exclude_unset : Bool := false
  exclude_defaults : Bool := false
  exclude_none : Bool := false
  custom_encoder : List (String × String) := []

/-- Python `key.startswith("_sa")` — the reserved persistence-layer prefix
test applied to dict keys in `dict_encoder` (line 103). Implemented over the
string's character list because `String.startsWith` does not reduce inside
the kernel. -/
def startswith_sa (s : String) : Bool :=
  match s.data with
  | '_' :: 's' :: 'a' :: _ => true
  | _ => false

/-- `d[k] = v` on an association list representing a Python dict: replaces the
value at the first occurrence of `k` (keeping its position, as Python dicts
keep the original insertion position), else appends. Also models `setattr`. -/
def assocSet {β : Type} : List (String × β) → String → β → List (String × β)
  | [], k, v => [(k, v)]
  | (k', v') :: rest, k, v =>
    if k' = k then (k', v) :: rest else (k', v') :: assocSet rest k v

/-- Python `d.update(u)`: every key of `u` is written into `d` in order. -/
def dictUpdate {β : Type} (d u : List (String × β)) : List (String × β) :=
  u.foldl (fun acc p => assocSet acc p.1 p.2) d

/-- Models a legal call of pydantic v1 `BaseModel.dict(include=…, exclude=…,
by_alias=…, exclude_unset=…, exclude_defaults=…, exclude_none=…)` — the
keyword set both pydantic's method and the repository's override
(src/core/schema/base.py lines 58-83) accept, as used by `DAOBase.update` at
dao.py line 163: the model's field mapping restricted to the explicitly-set
fields when `exclude_unset`, then to `include`, minus `exclude`, dropping
`None` values when `exclude_none`. (`by_alias`/`exclude_defaults` are not
represented: fields are stored under their effective names and
default-tracking is not embedded.) -/
def pdict (fields : List (String × Value)) (fieldsSet : List String) (a : EncArgs) :
    List (String × Value) :=
  (((fields.filter (fun p => !a.exclude_unset || decide (p.1 ∈ fieldsSet))).filter
      (fun p => match a.incl with
        | some inc => inc.contains (Value.vstr p.1)
        | none => true)).filter
      (fun p => match a.excl with
        | some exc => !exc.contains (Value.vstr p.1)
        | none => true)).filter
      (fun p => !a.exclude_none || !(p.2 == Value.vnone))

/-- `allowed_keys` of `dict_encoder` (src/core/utils/encoders.py lines
92-99): the dict's own keys, intersected with `include` when given, minus
`exclude` when given. -/
def allowed_keys_of (a : EncArgs) (ks : List Value) : List Value :=
  let ks1 := match a.incl with
    | some inc => ks.filter (fun k => inc.contains k)
    | none => ks
  match a.excl with
  | some exc => ks1.filter (fun k => !exc.contains k)
  | none => ks1

/-- `allowed_keys` for a string-keyed dict (keys are compared as the values
`vstr k`). -/
def allowed_str_keys_of (a : EncArgs) (ks : List String) : List String :=
  let ks1 := match a.incl with
    | some inc => ks.filter (fun k => inc.contains (Value.vstr k))
    | none => ks
  match a.excl with
  | some exc => ks1.filter (fun k => !exc.contains (Value.vstr k))
  | none => ks1

/-- Embeds `schema_encoder` (src/core/utils/encoders.py lines 28-79). For a
`BaseModel`: line 39 binds the local `encoder` to the `json_encoders` mapping
declared on the model's config and lines 41-42 merge `custom_encoder` into it
(the in-place mutation this performs on the declared mapping is modelled
separately by `schema_encoder_config_effect`); then line 44 calls
`obj.dict(include=…, exclude=…, by_alias=…, exclude_unset=…,
exclude_defaults=…, exclude_none=…, custom_encoder=encoder)`. Neither
pydantic v1 `BaseModel.dict` nor the repository's keyword-only override
(src/core/schema/base.py lines 58-83) accepts a `custom_encoder` keyword, so
this call raises `TypeError` for every model input — the `__root__`
unwrapping and re-encoding of lines 54-66 are unreachable. For a dataclass:
the branch reads the local `encoder`, which is only ever assigned in the
`BaseModel` branch, so the call raises `UnboundLocalError` (line 78,
`custom_encoder=encoder`). Any other input falls off the end of the Python
function returning `None` (unreachable from `jsonable_encoder`'s dispatch). -/
def schema_encoder (_a : EncArgs) : Value → Except EncError Value
  | .vmodel _ _ _ =>
    .error (.typeError "dict() got an unexpected keyword argument custom_encoder")
  | .vdataclass _ => .error (.unboundLocal "encoder")
  | _ => .ok .vnone

mutual

/-- Embeds `jsonable_encoder` (src/core/utils/encoders.py lines 150-226), the
Object Encoder's dispatch: primitives are returned as-is; dicts go to
`dict_encoder`; sequences to `sequence_encoder`; `BaseModel` and dataclass
instances to `schema_encoder`; a value with a registered converter (exact
type, or class family) yields the converter's output; the fallback views the
value as a mapping (`dict(obj)`) and then encodes that dict, else as its
attribute dictionary (`vars(obj)`) and encodes that string-keyed dict, else
raises `ValueError`. -/
def jsonable_encoder (a : EncArgs) : Value → Except EncError Value
  | .vstr s => .ok (.vstr s)
  | .vint n => .ok (.vint n)
  | .vbool b => .ok (.vbool b)
  | .vnone => .ok .vnone
  | .vdict entries => do
    let out ← dict_encoder a (allowed_keys_of a (entries.map Prod.fst)) entries
    pure (.vdict out)
  | .vlist elems => do
    let out ← sequence_encoder a elems
    pure (.vlist out)
  | .vmodel je fs fset => schema_encoder a (.vmodel je fs fset)
  | .vdataclass fs => schema_encoder a (.vdataclass fs)
  | .vspecial _ enc => .ok enc
  | .vobj (some d) _ => do
    let out ← dict_encoder a (allowed_keys_of a (d.map Prod.fst)) d
    pure (.vdict out)
  | .vobj none (some fs) => do
    let out ← str_dict_encoder a (allowed_str_keys_of a (fs.map Prod.fst)) fs
    pure (.vdict (out.map (fun p => (Value.vstr p.1, p.2))))
  | .vobj none none => .error .valueError
termination_by v => 2 * sizeOf v + 1
decreasing_by
  all_goals simp_wf
  all_goals omega

/-- Embeds `dict_encoder` (src/core/utils/encoders.py lines 82-120): walks the
entries in order and keeps an entry when its key is not a string starting with
`"_sa"`, its value is not `None` or `exclude_none` is off, and its key is in
`allowed` (the dict's keys filtered by `include`/`exclude`, precomputed by the
caller as in lines 92-99); the key is encoded with only `by_alias` forwarded,
the value with all options forwarded. -/
def dict_encoder (a : EncArgs) (allowed : List Value) :
    List (Value × Value) → Except EncError (List (Value × Value))
  | [] => .ok []
  | (k, v) :: rest =>
    if ((match k with | .vstr s => !startswith_sa s | _ => true)
        && (!(v == Value.vnone) || !a.exclude_none)
        && allowed.contains k) then do
      let ek ← jsonable_encoder { by_alias := a.by_alias } k
      let ev ← jsonable_encoder a v
      let r ← dict_encoder a allowed rest
      pure ((ek, ev) :: r)
    else
      dict_encoder a allowed rest
termination_by l => 2 * sizeOf l
decreasing_by
  all_goals simp_wf
  all_goals omega

/-- `dict_encoder` specialised to a string-keyed dict (as produced by
`vars(obj)` and `BaseModel.dict()`): same per-entry conditions with the key
`k` compared as the string it is; a string key encodes to itself under
`jsonable_encoder` (primitive case), so the key-encoding call is elided and
the output keeps `String` keys. -/
def str_dict_encoder (a : EncArgs) (allowed : List String) :
    List (String × Value) → Except EncError (List (String × Value))
  | [] => .ok []
  | (k, v) :: rest =>
    if (!startswith_sa k
        && (!(v == Value.vnone) || !a.exclude_none)
        && decide (k ∈ allowed)) then do
      let ev ← jsonable_encoder a v
      let r ← str_dict_encoder a allowed rest
      pure ((k, ev) :: r)
    else
      str_dict_encoder a allowed rest
termination_by l => 2 * sizeOf l
decreasing_by
  all_goals simp_wf
  all_goals omega

/-- Embeds `sequence_encoder` (src/core/utils/encoders.py lines 123-147):
encodes every element with the same options, materialising a list. -/
def sequence_encoder (a : EncArgs) : List Value → Except EncError (List Value)
  | [] => .ok []
  | x :: rest => do
    let ex ← jsonable_encoder a x
    let r ← sequence_encoder a rest
    pure (ex :: r)

termination_by l => 2 * sizeOf l
decreasing_by
  all_goals simp_wf
  all_goals omega

end

/-- The per-model-type declared `json_encoders` mappings (each pydantic model
class's `Config.json_encoders`), a process-wide piece of state. -/
structure ConfigRegistry where
  json_encoders : List (String × List (String × String))
deriving DecidableEq

/-- Models lines 38-42 of `schema_encoder` (src/core/utils/encoders.py) as a
state transformer on the declared per-type custom-encoder mappings:
`encoder = getattr(obj.__config__, "json_encoders", {})` aliases the mapping
declared on the model type's config when one is declared (else a fresh empty
dict), and `if custom_encoder: encoder.update(custom_encoder)` writes through
that alias, mutating the declared mapping in place whenever `custom_encoder`
is truthy. Returns the mapping used for the encode together with the registry
state after the call. -/
def schema_encoder_config_effect (reg : ConfigRegistry) (typeName : String)
    (custom_encoder : List (String × String)) :
    List (String × String) × ConfigRegistry :=
  match reg.json_encoders.lookup typeName with
  | none =>
    if custom_encoder.isEmpty then ([], reg)
    else (dictUpdate [] custom_encoder, reg)
  | some declared =>
    if custom_encoder.isEmpty then (declared, reg)
    else
      let merged := dictUpdate declared custom_encoder
      (merged, ⟨assocSet reg.json_encoders typeName merged⟩)

/-- Backend (storage-layer) exceptions as the DAO's exception handler
discriminates them: `IntegrityError` (a uniqueness/integrity violation) and
any other `SQLAlchemyError`. -/
inductive BackendError where
  | integrityError (msg : String)
  | sqlalchemyError (msg : String)
deriving DecidableEq

/-- `DAOExceptionBase` (src/core/db/exceptions.py lines 1-7): a status
classification and an optional detail message. -/
structure DAOExceptionBase where
  status_code : Nat
  detail : Option String
deriving DecidableEq

/-- `DAOConflictException()` with its default arguments (src/core/db/
exceptions.py lines 10-16): status 409, detail "Conflict.". -/
def DAOConflictException : DAOExceptionBase := ⟨409, some "Conflict."⟩

/-- The exceptions a DAO operation can let escape to its caller: an encoder
error (`ValueError`/`UnboundLocalError` from `jsonable_encoder`), a DAO-level
`DAOExceptionBase`, a raw backend exception that escaped untranslated
(`backendRaw` — the translation contract is that no operation ever returns
this), or a `NameError` (an unbound local read). -/
inductive PyError where
  | enc (e : EncError)
  | dao (e : DAOExceptionBase)
  | backendRaw (e : BackendError)
  | nameError (n : String)

/-- Embeds `DAOProtocol.catch_sqlalchemy_exception` (src/core/db/dao.py lines
29-39): runs the body; an escaping `IntegrityError` is re-raised as
`DAOConflictException()`, any other escaping `SQLAlchemyError` as
`DAOExceptionBase(500, f"An exception occurred: {e}")`. Exceptions that are
not `SQLAlchemyError`s (encoder errors, already-translated DAO exceptions)
pass through unchanged, as does a normal result. -/
def catch_sqlalchemy_exception {α : Type} (body : Except PyError α) : Except PyError α :=
  match body with
  | .error (.backendRaw (.integrityError _)) => .error (.dao DAOConflictException)
  | .error (.backendRaw (.sqlalchemyError m)) =>
    .error (.dao ⟨500, some ("An exception occurred: " ++ m)⟩)
  | other => other

/-- The DAO-level exception `catch_sqlalchemy_exception` produces for each
kind of backend failure. -/
def daoTranslate : BackendError → DAOExceptionBase
  | .integrityError _ => DAOConflictException
  | .sqlalchemyError m => ⟨500, some ("An exception occurred: " ++ m)⟩

/-- A unit of work staged on the session: `db.add(obj)` / `db.delete(obj)`. -/
inductive SessionOp where
  | add (v : Value)
  | del (v : Value)

/-- The transactional session: staged (pending) work and work made durable by
`commit`. -/
structure DBSession where
  pending : List SessionOp
  committed : List SessionOp

/-- `db.commit()`: every staged unit of work becomes durable. -/
def session_commit (s : DBSession) : DBSession :=
  ⟨[], s.committed ++ s.pending⟩

/-- `db.add(obj)`: stages a write. -/
def session_add (s : DBSession) (v : Value) : DBSession :=
  ⟨s.pending ++ [.add v], s.committed⟩

/-- `await db.delete(obj)`: marks the instance as deleted and returns `None`
(modelled as `Option.none`). -/
def session_delete (s : DBSession) (v : Value) : DBSession × Option Value :=
  (⟨s.pending ++ [.del v], s.committed⟩, none)

/-- A SQLAlchemy `Select` over the DAO's entity type, as refined by the DAO:
joins injected for relationship ordering, ORDER BY clauses (owning model,
attribute, is-descending), and offset/limit. Each refinement yields a new
value; the original is never mutated. -/
structure Sel where
  joins : List (String × String) := []
  orders : List (String × String × Bool) := []
  offset : Option Nat := none
  limit : Option Nat := none
deriving DecidableEq

/-- Executing an entity select against the backing store: `offset` drops,
`limit` takes. Joins and ORDER BY clauses do not change which rows are
returned (row sort order itself is not modelled; no claim depends on it). -/
def runSelect {α : Type} (st : Sel) (store : List α) : List α :=
  let rows := match st.offset with
    | some k => store.drop k
    | none => store
  match st.limit with
  | some n => rows.take n
  | none => rows

/-- `SELECT count(*)` as `DAOBase.count` builds it (src/core/db/dao.py lines
190-193): `with_only_columns([func.count()], maintain_column_froms=True)
.order_by(None)` replaces the entity projection by a row-count aggregate and
strips the ordering clauses; the scalar is the number of rows the select's
FROM ranges over. (The claims exercise `count` only on selects without
offset/limit, which is how `get_multi` calls it; the interaction of a
pre-existing offset/limit with the aggregate row is not modelled.) -/
def countRun {α : Type} (st : Sel) (store : List α) : Nat :=
  store.length

/-- `Result.unique()`: deduplicates the result rows, keeping first
occurrences in order. -/
def uniqueFirst {α : Type} [DecidableEq α] : List α → List α
  | [] => []
  | x :: rest => x :: uniqueFirst (rest.filter (fun y => decide (y ≠ x)))
termination_by l => l.length
decreasing_by
  simp_wf
  have h1 := List.length_filter_le (fun y => decide (y ≠ x)) rest
  have h2 := List.length_filter_le (fun y => !decide (y = x)) rest
  omega

/-- What `getattr` can find on a mapped entity class: a column attribute, or
a relationship attribute carrying its lazy-loading configuration (`True` iff
`lazy="joined"`) and the related entity class (`field.prop.entity.class_`). -/
inductive AttrKind where
  | column
  | relationship (lazy_joined : Bool) (target : String)
deriving DecidableEq

/-- An entity class's attributes, by name. -/
abbrev EntityMeta := List (String × AttrKind)

/-- The mapped entity classes of the application, by class name. -/
abbrev Registry := List (String × EntityMeta)

/-- `getattr(model, name)` on a mapped class: the attribute, or `none` when
an `AttributeError` is raised. -/
def getattrOf (reg : Registry) (model : String) (name : String) : Option AttrKind :=
  (reg.lookup model).bind (fun m => m.lookup name)

namespace DAOBase

/-- `DAOBase.execute` (src/core/db/dao.py lines 82-89): runs the statement
against the session inside `catch_sqlalchemy_exception`. The backend call's
outcome is the parameter `backend`. -/
def execute {α : Type} (backend : Except BackendError α) : Except PyError α :=
  catch_sqlalchemy_exception (backend.mapError PyError.backendRaw)

/-- `DAOBase.get` (lines 91-102): executes `select(model).where(id == id)`
(its row outcome is `backend`), takes the first result row, and returns
`none` — absence, not an error — when there is no row; a row `(entity,)` is
projected to the entity. The body runs inside `catch_sqlalchemy_exception`;
the inner `execute` wraps the backend call again. -/
def get {α : Type} (backend : Except BackendError (List α)) : Except PyError (Option α) :=
  catch_sqlalchemy_exception (do
    let rows ← execute backend
    pure rows.head?)

/-- `DAOBase.count` (lines 189-198): rewrites the statement to the count
projection with ordering stripped (`countRun`) and executes it inside
`catch_sqlalchemy_exception`. -/
def count {α : Type} (st : Sel) (store : List α) (backend : Except BackendError Unit) :
    Except PyError Nat :=
  catch_sqlalchemy_exception (do
    let _ ← backend.mapError PyError.backendRaw
    pure (countRun st store))

/-- `DAOBase.get_multi` (lines 104-116): builds `statement = select(model)`
and `paginated = statement.offset(skip).limit(limit)`, then — inside
`catch_sqlalchemy_exception` — gathers `count(db, statement)` (the
unpaginated select) and the execution of `paginated` concurrently
(`bCount`/`bFetch` are the two backend outcomes; a failure of either aborts
the call), and returns the `unique()`-deduplicated entity rows together with
the count. -/
def get_multi {α : Type} [DecidableEq α] (store : List α) (skip limit : Nat)
    (bCount bFetch : Except BackendError Unit) : Except PyError (List α × Nat) :=
  let statement : Sel := {}
  let paginated : Sel := { statement with offset := some skip, limit := some limit }
  catch_sqlalchemy_exception (do
    let c ← count statement store bCount
    let _ ← bFetch.mapError PyError.backendRaw
    pure (uniqueFirst (runSelect paginated store), c))

/-- `DAOBase.create` (lines 118-132): inside `catch_sqlalchemy_exception`,
passes `obj_in` through the Object Encoder (`obj_in_data =
jsonable_encoder(obj_in)`), constructs the new entity from that plain field
mapping (`self.model(**obj_in_data)` — the constructed entity is represented
by its field data), stages it with `db.add`, commits and refreshes when
`commit`, and returns it. `backend` is the outcome of the staged backend
work. -/
def create (s : DBSession) (obj_in : Value) (commit : Bool)
    (backend : Except BackendError Unit) : Except PyError (DBSession × Value) :=
  catch_sqlalchemy_exception (do
    let obj_in_data ← (jsonable_encoder {} obj_in).mapError PyError.enc
    let _ ← backend.mapError PyError.backendRaw
    let s1 := session_add s obj_in_data
    let s2 := if commit then session_commit s1 else s1
    pure (s2, obj_in_data))

/-- `DAOBase.create_many` (lines 134-147): inside `catch_sqlalchemy_exception`,
stages every element of `db_objects` with `db.add` exactly as given — no
element is passed through the Object Encoder — commits when `commit`, and
returns the input list itself. -/
def create_many (s : DBSession) (db_objects : List Value) (commit : Bool)
    (backend : Except BackendError Unit) : Except PyError (DBSession × List Value) :=
  catch_sqlalchemy_exception (do
    let _ ← backend.mapError PyError.backendRaw
    let s1 := db_objects.foldl session_add s
    let s2 := if commit then session_commit s1 else s1
    pure (s2, db_objects))

end DAOBase

/-- The two shapes of `obj_in` accepted by `DAOBase.update`: a plain dict, or
a pydantic schema instance carrying its field mapping and the set of fields
the caller explicitly set. -/
inductive UpdateIn where
  | dictIn (d : List (String × Value))
  | schemaIn (fields : List (String × Value)) (fieldsSet : List String)

/-- `update_data` as computed by `DAOBase.update` (lines 160-163): the
mapping itself when `obj_in` is a dict, else `obj_in.dict(exclude_unset=True)`
— exactly the fields the caller explicitly set. -/
def update_data_of : UpdateIn → List (String × Value)
  | .dictIn d => d
  | .schemaIn fs fset => pdict fs fset { exclude_unset := true }

/-- The field-assignment loop of `DAOBase.update` (lines 165-167): for each
key of the encoded entity dict `obj_data`, in order, if the key is present in
`update_data` then `setattr(db_obj, field, update_data[field])`. -/
def apply_update_fields (db_obj : List (String × Value)) (objDataKeys : List String)
    (upd : List (String × Value)) : List (String × Value) :=
  objDataKeys.foldl (fun acc k =>
    match upd.lookup k with
    | some v => assocSet acc k v
    | none => acc) db_obj

/-- `jsonable_encoder(db_obj)` applied to an ORM entity: `dict(entity)` fails,
so the fallback encodes `vars(entity)` — the entity's string-keyed attribute
dict — through the dict rules with default options. (`jsonable_encoder {}
(.vobj none (some e))` is exactly the `vdict`-wrapping of this; see
`jsonable_encoder_entity_agrees`.) -/
def encode_entity (e : List (String × Value)) : Except EncError (List (String × Value)) :=
  str_dict_encoder {} (allowed_str_keys_of {} (e.map Prod.fst)) e

theorem jsonable_encoder_entity_agrees (e : List (String × Value)) :
    jsonable_encoder {} (.vobj none (some e)) =
      (encode_entity e).map (fun out => .vdict (out.map (fun p => (Value.vstr p.1, p.2)))) := by
  rw [jsonable_encoder, encode_entity]
  cases h : str_dict_encoder {} (allowed_str_keys_of {} (e.map Prod.fst)) e <;>
    simp [h, Except.map]

namespace DAOBase

/-- `DAOBase.update` (lines 149-176): encodes the existing entity's current
attribute dict (`obj_data = jsonable_encoder(db_obj)` — this runs before the
exception-translation scope), computes `update_data` from `obj_in`, applies
the payload field-by-field over the keys of `obj_data`, then — inside
`catch_sqlalchemy_exception` — stages the entity with `db.add`, commits and
refreshes when `commit`, and returns the updated entity. -/
def update (s : DBSession) (db_obj : List (String × Value)) (obj_in : UpdateIn)
    (commit : Bool) (backend : Except BackendError Unit) :
    Except PyError (DBSession × List (String × Value)) := do
  let obj_data ← (encode_entity db_obj).mapError PyError.enc
  let new_obj := apply_update_fields db_obj (obj_data.map Prod.fst) (update_data_of obj_in)
  catch_sqlalchemy_exception (do
    let _ ← backend.mapError PyError.backendRaw
    let s1 := session_add s (.vobj none (some new_obj))
    let s2 := if commit then session_commit s1 else s1
    pure (s2, new_obj))

/-- `DAOBase.delete` (lines 178-187): inside `catch_sqlalchemy_exception`,
runs `deleted = await db.delete(db_object)` — which stages the removal and
returns `None` — commits when `commit`, and returns `deleted`. -/
def delete (s : DBSession) (db_object : List (String × Value)) (commit : Bool)
    (backend : Except BackendError Unit) : Except PyError (DBSession × Option Value) :=
  catch_sqlalchemy_exception (do
    let _ ← backend.mapError PyError.backendRaw
    let (s1, deleted) := session_delete s (.vobj none (some db_object))
    let s2 := if commit then session_commit s1 else s1
    pure (s2, deleted))

/-- The accessor walk of `DAOBase.order_by`'s multi-segment branch (lines
216-231): for each accessor in turn, `getattr` it on the current model; a
relationship attribute not configured `lazy="joined"` adds a join, and the
walk continues on the related entity's class; an `AttributeError` stops the
walk, marking the entry invalid (`valid_field = False`). `lastF` is the
value of the method-level local `field` on entering the loop (it is only
reassigned by a successful `getattr`, so it persists across entries of the
outer loop); the third component returned is `field` after the loop. -/
def resolve_accessors (reg : Registry) :
    String → List String → Sel → Option (String × String) →
      Bool × Sel × Option (String × String)
  | _, [], st, lastF => (true, st, lastF)
  | model, acc :: rest, st, lastF =>
    match getattrOf reg model acc with
    | none => (false, st, lastF)
    | some .column => resolve_accessors reg model rest st (some (model, acc))
    | some (.relationship lazyJ target) =>
      let st1 := if lazyJ then st else { st with joins := st.joins ++ [(model, acc)] }
      resolve_accessors reg target rest st1 (some (model, acc))

/-- One `(accessors, is_desc)` entry of `DAOBase.order_by` (lines 205-236).
`field0` is the current value of the method-level local `field` (annotated at
line 206 but only bound by a successful `getattr`, so it persists across
entries of the outer loop). With a single accessor, `getattr(self.model,
accessors[0])` — an `AttributeError` is swallowed (`pass`), leaving the
statement and `field` unchanged; otherwise the ordering clause is appended
and `field` becomes the found attribute. With any other number of accessors,
the accessor walk runs from `field0`; if it survived with `field` bound, the
ordering clause on that attribute is appended (for an empty accessor list the
walk does not run, so a still-unbound `field` makes `field.desc()` raise
`NameError`, while a stale `field` left by an earlier entry is ordered by);
if the walk failed, the entry is dropped, keeping whatever joins were added
before the failure. Returns the refined statement and `field` after the
entry. -/
def order_by_entry (reg : Registry) (model : String) (st : Sel)
    (field0 : Option (String × String)) (accessors : List String) (is_desc : Bool) :
    Except PyError (Sel × Option (String × String)) :=
  match accessors with
  | [acc] =>
    match getattrOf reg model acc with
    | none => .ok (st, field0)
    | some _ =>
      .ok ({ st with orders := st.orders ++ [(model, acc, is_desc)] }, some (model, acc))
  | _ =>
    match resolve_accessors reg model accessors st field0 with
    | (true, st1, some (m, acc)) =>
      .ok ({ st1 with orders := st1.orders ++ [(m, acc, is_desc)] }, some (m, acc))
    | (true, _, none) => .error (.nameError "field")
    | (false, st1, f1) => .ok (st1, f1)

/-- `DAOBase.order_by` (lines 200-238): folds the entries, in order, over the
statement together with the persisting `field` local (unbound on entry); an
exception raised by an entry aborts the call; the refined statement is
returned. -/
def order_by (reg : Registry) (model : String) (st : Sel)
    (ordering : List (List String × Bool)) : Except PyError Sel := do
  let r ← ordering.foldlM
    (fun acc entry => order_by_entry reg model acc.1 acc.2 entry.1 entry.2)
    (st, (none : Option (String × String)))
  pure r.1

end DAOBase

/-- The `id` column default (src/core/db/model.py line 24:
`Column(UUID, primary_key=True, default=uuid.uuid4)`): at INSERT time the
column default assigns a fresh UUID (`fresh`) when the attribute was not
supplied; a supplied identifier is kept and the entity is unchanged. -/
def apply_id_default (fresh : Value) (e : List (String × Value)) : List (String × Value) :=
  match e.lookup "id" with
  | some _ => e
  | none => e ++ [("id", fresh)]

theorem lookup_assocSet_self {β : Type} (e : List (String × β)) (k : String) (v : β) :
    (assocSet e k v).lookup k = some v := by
  induction e with
  | nil => simp [assocSet, List.lookup]
  | cons p t ih =>
    cases p with
    | mk k' v' =>
      by_cases h : k' = k
      · subst h
        simp [assocSet, List.lookup]
      · have hb : (k == k') = false := beq_false_of_ne (fun hh => h hh.symm)
        simp [assocSet, h, List.lookup, hb, ih]

theorem lookup_assocSet_ne {β : Type} (e : List (String × β)) (k k' : String) (v : β)
    (h : k ≠ k') : (assocSet e k' v).lookup k = e.lookup k := by
  induction e with
  | nil =>
    have hb : (k == k') = false := beq_false_of_ne h
    simp [assocSet, List.lookup, hb]
  | cons p t ih =>
    cases p with
    | mk k0 v0 =>
      by_cases h0 : k0 = k'
      · subst h0
        have hb : (k == k0) = false := beq_false_of_ne h
        simp [assocSet, List.lookup, hb]
      · simp [assocSet, h0, List.lookup, ih]

theorem map_fst_assocSet_mem {β : Type} (e : List (String × β)) (k : String) (v : β)
    (h : k ∈ e.map Prod.fst) : (assocSet e k v).map Prod.fst = e.map Prod.fst := by
  induction e with
  | nil => simp at h
  | cons p t ih =>
    cases p with
    | mk k0 v0 =>
      by_cases h0 : k0 = k
      · subst h0
        simp [assocSet]
      · simp [assocSet, h0]
        apply ih
        rw [List.map_cons] at h
        rcases List.mem_cons.mp h with h | h
        · exact absurd h.symm h0
        · exact h

theorem lookup_apply_update_fields (ks : List String) (upd : List (String × Value))
    (acc : List (String × Value)) (k : String) :
    (apply_update_fields acc ks upd).lookup k =
      if k ∈ ks ∧ (upd.lookup k).isSome then upd.lookup k else acc.lookup k := by
  induction ks generalizing acc with
  | nil => simp [apply_update_fields]
  | cons a t ih =>
    have step : apply_update_fields acc (a :: t) upd =
        apply_update_fields
          (match upd.lookup a with
           | some v => assocSet acc a v
           | none => acc) t upd := rfl
    rw [step, ih]
    by_cases hmem : k ∈ t ∧ (upd.lookup k).isSome
    · rw [if_pos hmem, if_pos ⟨List.mem_cons_of_mem _ hmem.1, hmem.2⟩]
    · rw [if_neg hmem]
      by_cases hka : k = a
      · subst hka
        cases hu : upd.lookup k with
        | some v =>
          rw [if_pos ⟨List.mem_cons_self _ _, by simp [hu]⟩]
          exact lookup_assocSet_self acc k v
        | none =>
          rw [if_neg (by simp [hu])]
      · have hcond : ¬ (k ∈ a :: t ∧ (upd.lookup k).isSome) := by
          intro hc
          exact hmem ⟨(List.mem_cons.mp hc.1).resolve_left hka, hc.2⟩
        rw [if_neg hcond]
        cases hu : upd.lookup a with
        | some v => exact lookup_assocSet_ne acc k a v hka
        | none => rfl

theorem map_fst_apply_update_fields (ks : List String) (upd : List (String × Value))
    (acc : List (String × Value)) (hs : ∀ k ∈ ks, k ∈ acc.map Prod.fst) :
    (apply_update_fields acc ks upd).map Prod.fst = acc.map Prod.fst := by
  induction ks generalizing acc with
  | nil => rfl
  | cons a t ih =>
    have step : apply_update_fields acc (a :: t) upd =
        apply_update_fields
          (match upd.lookup a with
           | some v => assocSet acc a v
           | none => acc) t upd := rfl
    rw [step]
    cases hu : upd.lookup a with
    | none =>
      simp only [hu]
      exact ih acc (fun k hk => hs k (List.mem_cons_of_mem _ hk))
    | some v =>
      simp only [hu]
      have hmap := map_fst_assocSet_mem acc a v (hs a (List.mem_cons_self _ _))
      rw [ih (assocSet acc a v) (fun k hk => by rw [hmap]; exact hs k (List.mem_cons_of_mem _ hk))]
      exact hmap

theorem str_dict_encoder_ok_keys (allowed : List String) (fs out : List (String × Value))
    (hall : ∀ k ∈ fs.map Prod.fst, k ∈ allowed)
    (h : str_dict_encoder {} allowed fs = .ok out) :
    out.map Prod.fst = (fs.map Prod.fst).filter (fun k => !startswith_sa k) := by
  induction fs generalizing out with
  | nil =>
    rw [str_dict_encoder] at h
    cases h
    simp
  | cons p t ih =>
    cases p with
    | mk k v =>
      rw [str_dict_encoder] at h
      have hk : k ∈ allowed := hall k (by simp)
      by_cases hsa : startswith_sa k
      · simp only [hsa, hk, Bool.not_true, Bool.false_and, Bool.and_false,
          if_neg (by simp : ¬ ((false && ((!(v == Value.vnone) ||
            !({} : EncArgs).exclude_none)) && decide (k ∈ allowed))) = true)] at h
        simp only [List.map_cons]
        rw [List.filter_cons]
        simp only [hsa, Bool.not_true, if_neg (by simp : ¬ false = true)]
        exact ih out (fun k' hk' => hall k' (by simp [hk'])) h
      · rw [if_pos (by simp [hsa, hk] : (((!startswith_sa k) &&
            ((!(v == Value.vnone) || !({} : EncArgs).exclude_none)) &&
            decide (k ∈ allowed))) = true)] at h
        cases hv : jsonable_encoder {} v with
        | error ee =>
          rw [hv] at h
          simp [Bind.bind, Except.bind] at h
        | ok ev =>
          rw [hv] at h
          cases hr : str_dict_encoder {} allowed t with
          | error ee =>
            rw [hr] at h
            simp [Bind.bind, Except.bind] at h
          | ok r =>
            rw [hr] at h
            simp [Bind.bind, Except.bind, Pure.pure, Except.pure] at h
            subst h
            simp only [List.map_cons]
            rw [List.filter_cons]
            simp [hsa, ih r (fun k' hk' => hall k' (by simp [hk'])) hr]

theorem encode_entity_ok_keys (e out : List (String × Value))
    (h : encode_entity e = .ok out) :
    out.map Prod.fst = (e.map Prod.fst).filter (fun k => !startswith_sa k) := by
  apply str_dict_encoder_ok_keys (allowed_str_keys_of {} (e.map Prod.fst)) e out _ h
  intro k hk
  simpa [allowed_str_keys_of] using hk

theorem uniqueFirst_of_nodup {α : Type} [DecidableEq α] (l : List α) (h : l.Nodup) :
    uniqueFirst l = l := by
  induction l with
  | nil => rw [uniqueFirst]
  | cons x t ih =>
    rw [uniqueFirst]
    have hx : x ∉ t := (List.nodup_cons.mp h).1
    have ht : t.Nodup := (List.nodup_cons.mp h).2
    have hf : t.filter (fun y => decide (y ≠ x)) = t := by
      apply List.filter_eq_self.mpr
      intro y hy
      simp
      exact fun hyx => hx (hyx ▸ hy)
    rw [hf, ih ht]

theorem lookup_append_right {β : Type} (k : String) (l1 l2 : List (String × β))
    (h : l1.lookup k = none) : (l1 ++ l2).lookup k = l2.lookup k := by
  induction l1 with
  | nil => simp
  | cons p t ih =>
    cases p with
    | mk k0 v0 =>
      by_cases hk : k = k0
      · subst hk
        simp [List.lookup] at h
      · have hb : (k == k0) = false := beq_false_of_ne hk
        simp only [List.lookup, hb, List.cons_append] at h ⊢
        exact ih h

/-- Full characterisation of `DAOBase.update` with a healthy backend: the
updated entity is `apply_update_fields` over the encoded entity's keys; its
attribute names are unchanged, and each attribute holds the payload value
exactly when the attribute survives entity encoding (not `_sa`-prefixed) and
the payload has that key. -/
theorem update_characterization (s : DBSession) (db_obj : List (String × Value))
    (obj_in : UpdateIn) (c : Bool) (od : List (String × Value))
    (hod : encode_entity db_obj = .ok od) :
    DAOBase.update s db_obj obj_in c (.ok ()) =
      .ok ((if c then session_commit (session_add s (.vobj none (some
              (apply_update_fields db_obj (od.map Prod.fst) (update_data_of obj_in)))))
            else session_add s (.vobj none (some
              (apply_update_fields db_obj (od.map Prod.fst) (update_data_of obj_in))))),
           apply_update_fields db_obj (od.map Prod.fst) (update_data_of obj_in))
    ∧ (apply_update_fields db_obj (od.map Prod.fst) (update_data_of obj_in)).map Prod.fst
        = db_obj.map Prod.fst
    ∧ ∀ k, (apply_update_fields db_obj (od.map Prod.fst) (update_data_of obj_in)).lookup k =
        if startswith_sa k = false ∧ k ∈ db_obj.map Prod.fst ∧
            ((update_data_of obj_in).lookup k).isSome
        then (update_data_of obj_in).lookup k else db_obj.lookup k := by
  have hkeys := encode_entity_ok_keys db_obj od hod
  refine ⟨?_, ?_, ?_⟩
  · simp only [DAOBase.update, hod]
    rfl
  · apply map_fst_apply_update_fields
    intro k hk
    rw [hkeys] at hk
    exact (List.mem_filter.mp hk).1
  · intro k
    rw [lookup_apply_update_fields]
    have hiff : (k ∈ od.map Prod.fst ∧ ((update_data_of obj_in).lookup k).isSome) ↔
        (startswith_sa k = false ∧ k ∈ db_obj.map Prod.fst ∧
          ((update_data_of obj_in).lookup k).isSome) := by
      rw [hkeys]
      simp only [List.mem_filter, Bool.not_eq_true']
      tauto
    rw [if_congr hiff rfl rfl]

/-- C1 (counterexample): the claim says ordering by an unresolvable field
path fails the whole call with an `UnresolvableOrderingField` error. On the
code it does not: for an entity class `Account` with only a `name` column,
`order_by(statement, [(["bogus"], False)])` raises nothing and returns the
statement unchanged — the entry is silently skipped (src/core/db/dao.py lines
208-215; no `UnresolvableOrderingField` exception exists anywhere in
src/core/db/exceptions.py). -/
theorem c1_order_by_unresolvable_counterexample :
    DAOBase.order_by [("Account", [("name", AttrKind.column)])] "Account" {}
        [(["bogus"], false)]
      = .ok {} := rfl

theorem resolve_accessors_orders (reg : Registry) (accs : List String) :
    ∀ (m : String) (st : Sel) (f : Option (String × String)),
      ((DAOBase.resolve_accessors reg m accs st f).2.1).orders = st.orders := by
  induction accs with
  | nil => intro m st f; rfl
  | cons a t ih =>
    intro m st f
    cases hga : getattrOf reg m a with
    | none => simp [DAOBase.resolve_accessors, hga]
    | some k =>
      cases k with
      | column => simp [DAOBase.resolve_accessors, hga, ih]
      | relationship lazyJ tgt =>
        cases lazyJ <;> simp [DAOBase.resolve_accessors, hga, ih]

theorem resolve_accessors_joins (reg : Registry) (accs : List String) :
    ∀ (m : String) (st : Sel) (f : Option (String × String)),
      ∃ js, ((DAOBase.resolve_accessors reg m accs st f).2.1).joins = st.joins ++ js := by
  induction accs with
  | nil => intro m st f; exact ⟨[], by simp [DAOBase.resolve_accessors]⟩
  | cons a t ih =>
    intro m st f
    cases hga : getattrOf reg m a with
    | none => exact ⟨[], by simp [DAOBase.resolve_accessors, hga]⟩
    | some k =>
      cases k with
      | column =>
        obtain ⟨js, hjs⟩ := ih m st (some (m, a))
        exact ⟨js, by simp [DAOBase.resolve_accessors, hga, hjs]⟩
      | relationship lazyJ tgt =>
        cases lazyJ with
        | true =>
          obtain ⟨js, hjs⟩ := ih tgt st (some (m, a))
          exact ⟨js, by simp [DAOBase.resolve_accessors, hga, hjs]⟩
        | false =>
          obtain ⟨js, hjs⟩ := ih tgt { st with joins := st.joins ++ [(m, a)] } (some (m, a))
          exact ⟨(m, a) :: js, by simp [DAOBase.resolve_accessors, hga, hjs]⟩

/-- The accessor walk's validity flag and refined statement do not depend on
the entering value of the `field` local, and with a nonempty accessor list a
surviving walk binds `field` independently of it. -/
theorem resolve_accessors_field_indep (reg : Registry) (accs : List String)
    (m : String) (st : Sel) (f1 f2 : Option (String × String)) :
    (DAOBase.resolve_accessors reg m accs st f1).1
        = (DAOBase.resolve_accessors reg m accs st f2).1
    ∧ (DAOBase.resolve_accessors reg m accs st f1).2.1
        = (DAOBase.resolve_accessors reg m accs st f2).2.1
    ∧ (accs ≠ [] → (DAOBase.resolve_accessors reg m accs st f1).1 = true →
        (DAOBase.resolve_accessors reg m accs st f1).2.2
          = (DAOBase.resolve_accessors reg m accs st f2).2.2) := by
  cases accs with
  | nil => exact ⟨rfl, rfl, fun h => absurd rfl h⟩
  | cons a t =>
    cases hga : getattrOf reg m a with
    | none => simp [DAOBase.resolve_accessors, hga]
    | some k =>
      cases k with
      | column => simp [DAOBase.resolve_accessors, hga]
      | relationship lazyJ tgt => simp [DAOBase.resolve_accessors, hga]

/-- The statement `order_by` computes over the remaining entries does not
depend on the value the `field` local carries into them, as long as none of
those entries has an empty accessor list (the only shape that reads the stale
`field`). -/
theorem order_by_fold_field_indep (reg : Registry) (model : String)
    (rest : List (List String × Bool)) :
    (∀ p ∈ rest, p.1 ≠ ([] : List String)) →
    ∀ (st : Sel) (f1 f2 : Option (String × String)),
      (List.foldlM
          (fun acc entry => DAOBase.order_by_entry reg model acc.1 acc.2 entry.1 entry.2)
          (st, f1) rest >>= fun r => (pure r.1 : Except PyError Sel))
        = (List.foldlM
          (fun acc entry => DAOBase.order_by_entry reg model acc.1 acc.2 entry.1 entry.2)
          (st, f2) rest >>= fun r => pure r.1) := by
  induction rest with
  | nil => intro hr st f1 f2; rfl
  | cons e t ih =>
    intro hr st f1 f2
    obtain ⟨accs, d⟩ := e
    have hne : accs ≠ [] := hr (accs, d) (List.mem_cons_self _ _)
    have hrt : ∀ p ∈ t, p.1 ≠ ([] : List String) := fun p hp => hr p (List.mem_cons_of_mem _ hp)
    rw [List.foldlM_cons, List.foldlM_cons]
    match accs, hne with
    | [a], _ =>
      cases hga : getattrOf reg model a with
      | none =>
        simp only [DAOBase.order_by_entry, hga, Bind.bind, Except.bind]
        exact ih hrt st f1 f2
      | some k =>
        simp only [DAOBase.order_by_entry, hga, Bind.bind, Except.bind]
    | a :: b :: t2, _ =>
      obtain ⟨h1, h2, h3⟩ :=
        resolve_accessors_field_indep reg (a :: b :: t2) model st f1 f2
      cases hres1 : DAOBase.resolve_accessors reg model (a :: b :: t2) st f1 with
      | mk v1 r1 =>
        obtain ⟨s1, l1⟩ := r1
        cases hres2 : DAOBase.resolve_accessors reg model (a :: b :: t2) st f2 with
        | mk v2 r2 =>
          obtain ⟨s2, l2⟩ := r2
          rw [hres1, hres2] at h1 h2 h3
          simp only at h1 h2
          subst h1
          subst h2
          cases v1 with
          | false =>
            simp only [DAOBase.order_by_entry, hres1, hres2, Bind.bind, Except.bind]
            exact ih hrt s1 l1 l2
          | true =>
            have hl : l1 = l2 := h3 (by simp) rfl
            subst hl
            simp only [DAOBase.order_by_entry, hres1, hres2]

/-- C1 (amended): an ordering entry whose field path contains an unresolvable
segment never raises and its ordering criterion is never applied. In detail:
(i) a single-name entry whose name does not resolve leaves the call exactly
as if the entry were absent; (ii) a multi-segment entry whose walk fails at
any segment yields the statement with its ORDER BY clauses untouched and at
most joins (those injected for the segments resolved before the failure)
appended; and (iii) the whole call then proceeds with the remaining entries
applied to that statement (stated for remaining entries with nonempty paths,
since an empty path is the one shape that reads the loop's stale `field`
local). -/
theorem c1_order_by_skips_unresolvable (reg : Registry) (model : String) :
    (∀ (st : Sel) (a : String) (is_desc : Bool) (rest : List (List String × Bool)),
      getattrOf reg model a = none →
      DAOBase.order_by reg model st (([a], is_desc) :: rest)
        = DAOBase.order_by reg model st rest)
    ∧ (∀ (st st1 : Sel) (f0 f1 : Option (String × String)) (accessors : List String)
        (is_desc : Bool),
      accessors.length ≠ 1 →
      DAOBase.resolve_accessors reg model accessors st f0 = (false, st1, f1) →
      DAOBase.order_by_entry reg model st f0 accessors is_desc = .ok (st1, f1)
      ∧ st1.orders = st.orders
      ∧ ∃ js, st1.joins = st.joins ++ js)
    ∧ (∀ (st st1 : Sel) (f1 : Option (String × String)) (accessors : List String)
        (is_desc : Bool) (rest : List (List String × Bool)),
      accessors.length ≠ 1 →
      DAOBase.resolve_accessors reg model accessors st none = (false, st1, f1) →
      (∀ p ∈ rest, p.1 ≠ ([] : List String)) →
      DAOBase.order_by reg model st ((accessors, is_desc) :: rest)
        = DAOBase.order_by reg model st1 rest) := by
  have hentry : ∀ (st st1 : Sel) (f0 f1 : Option (String × String))
      (accessors : List String) (is_desc : Bool),
      accessors.length ≠ 1 →
      DAOBase.resolve_accessors reg model accessors st f0 = (false, st1, f1) →
      DAOBase.order_by_entry reg model st f0 accessors is_desc = .ok (st1, f1) := by
    intro st st1 f0 f1 accessors is_desc hlen hres
    match accessors with
    | [] => simp [DAOBase.resolve_accessors] at hres
    | [a] => exact absurd rfl hlen
    | a :: b :: t => simp [DAOBase.order_by_entry, hres]
  refine ⟨?_, ?_, ?_⟩
  · intro st a is_desc rest hattr
    have h1 : DAOBase.order_by_entry reg model st none [a] is_desc = .ok (st, none) := by
      simp [DAOBase.order_by_entry, hattr]
    simp only [DAOBase.order_by, List.foldlM_cons]
    simp [h1, Bind.bind, Except.bind]
  · intro st st1 f0 f1 accessors is_desc hlen hres
    refine ⟨hentry st st1 f0 f1 accessors is_desc hlen hres, ?_, ?_⟩
    · have h := resolve_accessors_orders reg accessors model st f0
      rw [hres] at h
      exact h
    · have h := resolve_accessors_joins reg accessors model st f0
      rw [hres] at h
      exact h
  · intro st st1 f1 accessors is_desc rest hlen hres hrest
    have h1 := hentry st st1 none f1 accessors is_desc hlen hres
    simp only [DAOBase.order_by, List.foldlM_cons]
    simp only [h1, Bind.bind, Except.bind]
    exact order_by_fold_field_indep reg model rest hrest st1 f1 none

/-- C1 (witness for the amended theorem): concrete instances — (i) the
single-name entry `(["missing"], True)` on `Account` is skipped and
`(["name"], False)` still applies; (ii)/(iii) the entry
`(["owner", "bogus"], True)` resolves the `owner` relationship of `Account`
(injecting its join), fails on `bogus` (no such attribute on `User`), raises
nothing, applies no ordering clause, and the call continues on the joined
statement. -/
theorem c1_order_by_skips_unresolvable_witness :
    getattrOf [("Account", [("name", AttrKind.column)])] "Account" "missing" = none
    ∧ DAOBase.order_by [("Account", [("name", AttrKind.column)])] "Account" {}
          [(["missing"], true), (["name"], false)]
        = DAOBase.order_by [("Account", [("name", AttrKind.column)])] "Account" {}
          [(["name"], false)]
    ∧ (["owner", "bogus"] : List String).length ≠ 1
    ∧ DAOBase.resolve_accessors
          [("Account", [("owner", AttrKind.relationship false "User"),
              ("name", AttrKind.column)]),
           ("User", [("email", AttrKind.column)])] "Account" ["owner", "bogus"] {} none
        = (false, ⟨[("Account", "owner")], [], none, none⟩, some ("Account", "owner"))
    ∧ DAOBase.order_by
          [("Account", [("owner", AttrKind.relationship false "User"),
              ("name", AttrKind.column)]),
           ("User", [("email", AttrKind.column)])] "Account" {}
          [(["owner", "bogus"], true), (["name"], false)]
        = DAOBase.order_by
          [("Account", [("owner", AttrKind.relationship false "User"),
              ("name", AttrKind.column)]),
           ("User", [("email", AttrKind.column)])] "Account"
          ⟨[("Account", "owner")], [], none, none⟩ [(["name"], false)] :=
  ⟨rfl,
    (c1_order_by_skips_unresolvable [("Account", [("name", AttrKind.column)])] "Account").1
      {} "missing" true [(["name"], false)] rfl,
    by decide, rfl,
    (c1_order_by_skips_unresolvable
        [("Account", [("owner", AttrKind.relationship false "User"),
            ("name", AttrKind.column)]),
         ("User", [("email", AttrKind.column)])] "Account").2.2
      {} ⟨[("Account", "owner")], [], none, none⟩ (some ("Account", "owner"))
      ["owner", "bogus"] true [(["name"], false)] (by decide) rfl (by decide)⟩

/-- C5: the claim says `delete` stages the removal, commits when `commit` is
true, and returns the deleted entity itself. The code stages and commits, but
returns the result of `await db.delete(db_object)` — which is `None` — so the
caller receives `None`, never the entity (src/core/db/dao.py lines 178-187;
this contradicts the repository's own annotation `-> ModelType` on
`DAOProtocol.delete` and `DAOBase.delete`): a code bug, evaluated here at a
concrete entity. -/
theorem c5_delete_returns_none :
    DAOBase.delete ⟨[], []⟩ [("id", Value.vint 1)] true (.ok ())
      = .ok (⟨[], [SessionOp.del (.vobj none (some [("id", Value.vint 1)]))]⟩, none) := rfl

/-- C7: the claim says the encoder leaves every record type's declared
per-type custom-encoder mapping unchanged. It does not: `schema_encoder`
aliases the model config's `json_encoders` dict and `encoder.update
(custom_encoder)` writes through the alias (src/core/utils/encoders.py lines
38-42), so encoding a model of a type declaring `json_encoders={datetime:
isoformat}` with `custom_encoder={UUID: str}` mutates the declared mapping in
place: a code bug (the spec's purity statement is the intent). -/
theorem c7_schema_encoder_mutates_declared_json_encoders :
    (schema_encoder_config_effect ⟨[("M", [("datetime", "isoformat")])]⟩ "M"
        [("UUID", "str")]).2 ≠ ⟨[("M", [("datetime", "isoformat")])]⟩ := by
  decide

/-- C8: the claim (and spec case 5) says a plain structured record without a
declared schema is converted to its field mapping and encoded rather than
failing. The code fails: `jsonable_encoder` dispatches a dataclass instance
to `schema_encoder` (src/core/utils/encoders.py lines 187-197), whose
dataclass branch (lines 67-79) reads the local `encoder` that is only
assigned in the `BaseModel` branch, raising `UnboundLocalError` for every
dataclass input: a code bug, evaluated here at the record `{x: 1}`. -/
theorem c8_dataclass_encoding_raises_unbound_local :
    jsonable_encoder {} (.vdataclass [("x", Value.vint 1)])
      = .error (.unboundLocal "encoder") := by
  simp [jsonable_encoder, schema_encoder]

/-- `true` iff a DAO operation's outcome is a raw (untranslated) backend
exception escaping to the caller. -/
def is_raw_backend_error {α : Type} : Except PyError α → Bool
  | .error (.backendRaw _) => true
  | _ => false

theorem catch_translates_raw {α : Type} (e : BackendError) :
    catch_sqlalchemy_exception (α := α) (.error (.backendRaw e))
      = .error (.dao (daoTranslate e)) := by
  cases e <;> rfl

theorem catch_never_raw {α : Type} (x : Except PyError α) :
    is_raw_backend_error (catch_sqlalchemy_exception x) = false := by
  match x with
  | .ok a => rfl
  | .error (.backendRaw (.integrityError m)) => rfl
  | .error (.backendRaw (.sqlalchemyError m)) => rfl
  | .error (.dao d) => rfl
  | .error (.enc ee) => rfl
  | .error (.nameError n) => rfl

/-- C2: every backend failure during a DAO operation (`execute`, `get`,
`get_multi`, `create`, `create_many`, `update`, `delete`, `count`) is
re-raised through `catch_sqlalchemy_exception`: an integrity violation as
`DAOConflictException` (status 409, "Conflict."), any other storage-layer
error as `DAOExceptionBase(500, "An exception occurred: …")` carrying the
message — and no operation ever lets a raw backend exception escape, for any
backend outcome. (`create` reaches its backend work only after the encoder
succeeds, and `update` encodes the entity before entering the translation
scope — hence the two encoding hypotheses.) -/
theorem c2_backend_errors_translated {α : Type} (e : BackendError) (m : String)
    (store : List Nat) (skip lim : Nat) (s : DBSession) (v : Value) (d : Value)
    (objs : List Value) (c : Bool) (db_obj od : List (String × Value))
    (obj_in : UpdateIn)
    (hv : jsonable_encoder {} v = .ok d)
    (hod : encode_entity db_obj = .ok od) :
    DAOBase.execute (α := α) (.error e) = .error (.dao (daoTranslate e))
    ∧ DAOBase.get (α := α) (.error e) = .error (.dao (daoTranslate e))
    ∧ DAOBase.get_multi store skip lim (.error e) (.ok ()) = .error (.dao (daoTranslate e))
    ∧ DAOBase.get_multi store skip lim (.ok ()) (.error e) = .error (.dao (daoTranslate e))
    ∧ DAOBase.create s v c (.error e) = .error (.dao (daoTranslate e))
    ∧ DAOBase.create_many s objs c (.error e) = .error (.dao (daoTranslate e))
    ∧ DAOBase.update s db_obj obj_in c (.error e) = .error (.dao (daoTranslate e))
    ∧ DAOBase.delete s db_obj c (.error e) = .error (.dao (daoTranslate e))
    ∧ DAOBase.count {} store (.error e) = .error (.dao (daoTranslate e))
    ∧ daoTranslate (.integrityError m) = ⟨409, some "Conflict."⟩
    ∧ daoTranslate (.sqlalchemyError m) = ⟨500, some ("An exception occurred: " ++ m)⟩
    ∧ (∀ b : Except BackendError α, is_raw_backend_error (DAOBase.execute b) = false)
    ∧ (∀ b : Except BackendError (List α), is_raw_backend_error (DAOBase.get b) = false)
    ∧ (∀ b1 b2 : Except BackendError Unit,
        is_raw_backend_error (DAOBase.get_multi store skip lim b1 b2) = false)
    ∧ (∀ (b : Except BackendError Unit) (w : Value) (c2 : Bool),
        is_raw_backend_error (DAOBase.create s w c2 b) = false)
    ∧ (∀ (b : Except BackendError Unit) (os : List Value) (c2 : Bool),
        is_raw_backend_error (DAOBase.create_many s os c2 b) = false)
    ∧ (∀ (b : Except BackendError Unit) (dbo : List (String × Value)) (oi : UpdateIn)
        (c2 : Bool), is_raw_backend_error (DAOBase.update s dbo oi c2 b) = false)
    ∧ (∀ (b : Except BackendError Unit) (dbo : List (String × Value)) (c2 : Bool),
        is_raw_backend_error (DAOBase.delete s dbo c2 b) = false)
    ∧ (∀ (b : Except BackendError Unit) (st2 : Sel),
        is_raw_backend_error (DAOBase.count st2 store b) = false) := by
  refine ⟨by cases e <;> rfl, by cases e <;> rfl, by cases e <;> rfl, by cases e <;> rfl,
    ?_, by cases e <;> rfl, ?_, by cases e <;> rfl, by cases e <;> rfl, rfl, rfl,
    fun b => catch_never_raw _, fun b => catch_never_raw _,
    fun b1 b2 => catch_never_raw _, fun b w c2 => catch_never_raw _,
    fun b os c2 => catch_never_raw _, ?_, fun b dbo c2 => catch_never_raw _,
    fun b st2 => catch_never_raw _⟩
  · simp only [DAOBase.create, hv]
    cases e <;> rfl
  · simp only [DAOBase.update, hod]
    cases e <;> rfl
  · intro b dbo oi c2
    cases hdo : encode_entity dbo with
    | error ee =>
      simp [DAOBase.update, hdo, is_raw_backend_error, Bind.bind, Except.bind, Except.mapError]
    | ok od2 =>
      simp only [DAOBase.update, hdo]
      exact catch_never_raw _

/-- C2 (witness): concrete instance — an integrity violation during `create`
of an (empty-dict) spec surfaces as the 409 conflict exception. -/
theorem c2_backend_errors_translated_witness :
    jsonable_encoder {} (Value.vdict []) = .ok (Value.vdict [])
    ∧ encode_entity [("id", Value.vint 1)] = .ok [("id", Value.vint 1)]
    ∧ DAOBase.create ⟨[], []⟩ (Value.vdict []) true (.error (.integrityError "dup"))
        = .error (.dao ⟨409, some "Conflict."⟩) := by
  have h := c2_backend_errors_translated (α := Unit) (.integrityError "dup") "dup"
    [] 0 0 ⟨[], []⟩ (Value.vdict []) (Value.vdict []) [] true
    [("id", Value.vint 1)] [("id", Value.vint 1)] (.dictIn [])
    (by simp [jsonable_encoder, dict_encoder, allowed_keys_of])
    (by simp +decide [encode_entity, str_dict_encoder, allowed_str_keys_of, startswith_sa,
          jsonable_encoder]
        rfl)
  exact ⟨by simp [jsonable_encoder, dict_encoder, allowed_keys_of],
    by simp +decide [encode_entity, str_dict_encoder, allowed_str_keys_of, startswith_sa,
         jsonable_encoder]
       rfl,
    h.2.2.2.2.1⟩

/-- C4: the DAO's `count` over the (unfiltered, unpaginated) entity select
returns exactly the number of entities `get_multi` returns with `skip=0` and
a limit at least the store size, and the `total_count` `get_multi` returns
equals the length of its result list when no offset/limit truncation occurs.
(The `Nodup` hypothesis is the primary-key uniqueness of stored rows, under
which `Result.unique()` is the identity.) -/
theorem c4_count_matches_unbounded_get_multi (store : List Nat) (lim : Nat)
    (hnd : store.Nodup) (hlim : store.length ≤ lim) :
    DAOBase.get_multi store 0 lim (.ok ()) (.ok ()) = .ok (store, store.length)
    ∧ DAOBase.count {} store (.ok ()) = .ok store.length := by
  constructor
  · simp [DAOBase.get_multi, DAOBase.count, catch_sqlalchemy_exception, countRun, runSelect,
      Bind.bind, Except.bind, Except.mapError, Pure.pure, Except.pure,
      List.take_of_length_le hlim, uniqueFirst_of_nodup store hnd]
  · simp [DAOBase.count, catch_sqlalchemy_exception, countRun, Bind.bind, Except.bind,
      Except.mapError, Pure.pure, Except.pure]

/-- C4 (witness): concrete instance over a three-row store. -/
theorem c4_count_matches_unbounded_get_multi_witness :
    ([3, 1, 2] : List Nat).Nodup ∧ ([3, 1, 2] : List Nat).length ≤ 100
    ∧ DAOBase.get_multi [3, 1, 2] 0 100 (.ok ()) (.ok ()) = .ok ([3, 1, 2], 3)
    ∧ DAOBase.count {} [3, 1, 2] (.ok ()) = .ok 3 := by
  have h := c4_count_matches_unbounded_get_multi [3, 1, 2] 100 (by decide) (by decide)
  exact ⟨by decide, by decide, h.1, h.2⟩

/-- C6: `create` passes its input spec through the Object Encoder and stages
and returns the entity constructed from the encoder's output, surfacing the
encoder's exception when it raises; `create_many` stages every input exactly
as given — no element passes through the encoder — and returns the input list
itself. Concretely: a mapping spec is staged by `create` as its encoded field
mapping; a schema'd (pydantic) record makes `create` raise the encoder's
`TypeError` (its `obj.dict(..., custom_encoder=…)` call — see
`schema_encoder`) before anything is staged, while `create_many` stages the
very same record untouched, never invoking the encoder. -/
theorem c6_create_encodes_create_many_does_not :
    (∀ (s : DBSession) (obj_in : Value) (c : Bool),
      DAOBase.create s obj_in c (.ok ()) =
        match jsonable_encoder {} obj_in with
        | .ok d => .ok ((if c then session_commit (session_add s d) else session_add s d), d)
        | .error ee => .error (.enc ee))
    ∧ (∀ (s : DBSession) (objs : List Value) (c : Bool),
      DAOBase.create_many s objs c (.ok ()) =
        .ok ((if c then session_commit (objs.foldl session_add s) else objs.foldl session_add s),
          objs))
    ∧ DAOBase.create ⟨[], []⟩ (Value.vdict [(Value.vstr "x", Value.vint 1)]) false (.ok ())
        = .ok (⟨[SessionOp.add (Value.vdict [(Value.vstr "x", Value.vint 1)])], []⟩,
               Value.vdict [(Value.vstr "x", Value.vint 1)])
    ∧ DAOBase.create ⟨[], []⟩ (Value.vmodel [] [("x", Value.vint 1)] ["x"]) false (.ok ())
        = .error (.enc (.typeError "dict() got an unexpected keyword argument custom_encoder"))
    ∧ DAOBase.create_many ⟨[], []⟩ [Value.vmodel [] [("x", Value.vint 1)] ["x"]] false (.ok ())
        = .ok (⟨[SessionOp.add (Value.vmodel [] [("x", Value.vint 1)] ["x"])], []⟩,
               [Value.vmodel [] [("x", Value.vint 1)] ["x"]]) := by
  refine ⟨?_, ?_, ?_, ?_, rfl⟩
  · intro s obj_in c
    cases h : jsonable_encoder {} obj_in with
    | ok d =>
      simp [DAOBase.create, h, catch_sqlalchemy_exception, Bind.bind, Except.bind,
        Except.mapError, Pure.pure, Except.pure]
    | error ee =>
      simp [DAOBase.create, h, catch_sqlalchemy_exception, Bind.bind, Except.bind,
        Except.mapError, Pure.pure, Except.pure]
  · intro s objs c
    rfl
  · simp +decide [DAOBase.create, jsonable_encoder, dict_encoder, allowed_keys_of,
      startswith_sa, catch_sqlalchemy_exception, Bind.bind, Except.bind, Except.mapError,
      Pure.pure, Except.pure, session_add, value_beq_eq, Value.beq]
  · simp [DAOBase.create, jsonable_encoder, schema_encoder, catch_sqlalchemy_exception,
      Bind.bind, Except.bind, Except.mapError]

/-- C10: for a plain-mapping payload, `update` applies exactly the payload
keys that appear in the JSON-encoded field mapping of the existing entity
(its attributes surviving encoding, i.e. not `_sa`-prefixed); any other
payload key is silently ignored — the call still succeeds, and the ignored
key never raises and never creates a new attribute: the updated entity has
exactly the original attribute names, and every attribute outside the applied
set keeps its original value. -/
theorem c10_update_dict_ignores_unknown_keys (s : DBSession)
    (db_obj p : List (String × Value)) (c : Bool) (od : List (String × Value))
    (hod : encode_entity db_obj = .ok od) :
    ∃ new_obj,
      DAOBase.update s db_obj (.dictIn p) c (.ok ()) =
        .ok ((if c then session_commit (session_add s (.vobj none (some new_obj)))
              else session_add s (.vobj none (some new_obj))), new_obj)
      ∧ new_obj.map Prod.fst = db_obj.map Prod.fst
      ∧ (∀ k, (startswith_sa k = false ∧ k ∈ db_obj.map Prod.fst ∧ (p.lookup k).isSome) →
          new_obj.lookup k = p.lookup k)
      ∧ (∀ k, ¬ (startswith_sa k = false ∧ k ∈ db_obj.map Prod.fst ∧ (p.lookup k).isSome) →
          new_obj.lookup k = db_obj.lookup k) := by
  obtain ⟨heq, hkeys, hlook⟩ := update_characterization s db_obj (.dictIn p) c od hod
  simp only [update_data_of] at heq hkeys hlook
  refine ⟨_, heq, hkeys, ?_, ?_⟩
  · intro k hk
    rw [hlook k, if_pos hk]
  · intro k hk
    rw [hlook k, if_neg hk]

/-- C3 (counterexample): the claim says that for a plain-mapping input every
key of the mapping is applied to the entity. It is not: updating an entity
with attributes `{id, name}` by the mapping `{nickname: 9}` succeeds,
applies nothing, and the returned entity has no `nickname` attribute at all
(the loop in src/core/db/dao.py lines 165-167 iterates the encoded entity's
keys, so payload keys that are not entity fields are dropped). -/
theorem c3_update_dict_key_not_applied_counterexample :
    DAOBase.update ⟨[], []⟩ [("id", Value.vint 1), ("name", Value.vstr "a")]
        (.dictIn [("nickname", Value.vint 9)]) false (.ok ())
      = .ok (⟨[SessionOp.add (.vobj none
               (some [("id", Value.vint 1), ("name", Value.vstr "a")]))], []⟩,
             [("id", Value.vint 1), ("name", Value.vstr "a")])
    ∧ ([("id", Value.vint 1), ("name", Value.vstr "a")] :
        List (String × Value)).lookup "nickname" = none := by
  have he : encode_entity [("id", Value.vint 1), ("name", Value.vstr "a")]
      = .ok [("id", Value.vint 1), ("name", Value.vstr "a")] := by
    simp +decide [encode_entity, str_dict_encoder, allowed_str_keys_of, startswith_sa,
      jsonable_encoder]
    rfl
  constructor
  · simp only [DAOBase.update, he]
    rfl
  · rfl

/-- C3 (amended): `update` applies, for a plain-mapping input, exactly the
keys of the mapping that also name a field of the entity's encoded field
mapping; for a structured record, exactly the fields explicitly marked "set"
by the caller that also name such a field; every other field of the entity —
unset record fields, and entity attributes outside the payload — is left
untouched, and payload keys that resolve to no entity field are dropped. -/
theorem c3_update_payload_application (s : DBSession) (db_obj : List (String × Value))
    (obj_in : UpdateIn) (c : Bool) (od : List (String × Value))
    (hod : encode_entity db_obj = .ok od) :
    (∀ (fs : List (String × Value)) (fset : List String),
      update_data_of (.schemaIn fs fset) = fs.filter (fun q => decide (q.1 ∈ fset)))
    ∧ ∃ new_obj,
        DAOBase.update s db_obj obj_in c (.ok ()) =
          .ok ((if c then session_commit (session_add s (.vobj none (some new_obj)))
                else session_add s (.vobj none (some new_obj))), new_obj)
        ∧ new_obj.map Prod.fst = db_obj.map Prod.fst
        ∧ ∀ k, new_obj.lookup k =
            if startswith_sa k = false ∧ k ∈ db_obj.map Prod.fst ∧
                ((update_data_of obj_in).lookup k).isSome
            then (update_data_of obj_in).lookup k else db_obj.lookup k := by
  constructor
  · intro fs fset
    simp [update_data_of, pdict]
  · obtain ⟨heq, hkeys, hlook⟩ := update_characterization s db_obj obj_in c od hod
    exact ⟨_, heq, hkeys, hlook⟩

/-- C9 (counterexample): the claim says no DAO operation ever reassigns an
entity's identifier. `update` does when the payload contains the `id` key:
updating the entity `{id: 1}` with the mapping `{id: 2}` returns the entity
with `id = 2`. -/
theorem c9_update_reassigns_id_counterexample :
    DAOBase.update ⟨[], []⟩ [("id", Value.vint 1)] (.dictIn [("id", Value.vint 2)]) false
        (.ok ())
      = .ok (⟨[SessionOp.add (.vobj none (some [("id", Value.vint 2)]))], []⟩,
             [("id", Value.vint 2)]) := by
  have he : encode_entity [("id", Value.vint 1)] = .ok [("id", Value.vint 1)] := by
    simp +decide [encode_entity, str_dict_encoder, allowed_str_keys_of, startswith_sa,
      jsonable_encoder]
    rfl
  simp only [DAOBase.update, he]
  rfl

/-- C9 (amended): an entity's identifier is assigned at creation — a supplied
`id` is kept, and the `id` column default fills a fresh one when none is
supplied — and `update` leaves the identifier unchanged whenever the update
payload (the mapping's keys, or the record's explicitly-set fields) does not
itself contain the `id` field; only a payload containing `id` reassigns it. -/
theorem c9_id_reassigned_only_by_id_payload (s : DBSession)
    (db_obj : List (String × Value)) (obj_in : UpdateIn) (c : Bool)
    (od : List (String × Value))
    (hod : encode_entity db_obj = .ok od)
    (hid : (update_data_of obj_in).lookup "id" = none) :
    (∃ new_obj, DAOBase.update s db_obj obj_in c (.ok ()) =
        .ok ((if c then session_commit (session_add s (.vobj none (some new_obj)))
              else session_add s (.vobj none (some new_obj))), new_obj)
      ∧ new_obj.lookup "id" = db_obj.lookup "id")
    ∧ (∀ (fresh : Value) (e : List (String × Value)),
        (apply_id_default fresh e).lookup "id" = some ((e.lookup "id").getD fresh)) := by
  constructor
  · obtain ⟨heq, hkeys, hlook⟩ := update_characterization s db_obj obj_in c od hod
    refine ⟨_, heq, ?_⟩
    rw [hlook "id", if_neg (by simp [hid])]
  · intro fresh e
    cases he : e.lookup "id" with
    | some v => simp [apply_id_default, he]
    | none =>
      simp [apply_id_default, he, lookup_append_right _ _ _ he, List.lookup]

/-- C10 (witness): concrete instance — on an entity `{id: 1, name: "a"}`
(whose `__dict__` also carries `_sa_instance_state`), the payload
`{name: "b", bogus: 7}` applies `name` and silently drops `bogus`. -/
theorem c10_update_dict_ignores_unknown_keys_witness :
    encode_entity [("id", Value.vint 1), ("name", Value.vstr "a"),
        ("_sa_instance_state", Value.vstr "st")]
      = .ok [("id", Value.vint 1), ("name", Value.vstr "a")]
    ∧ ∃ new_obj,
      DAOBase.update ⟨[], []⟩
          [("id", Value.vint 1), ("name", Value.vstr "a"),
            ("_sa_instance_state", Value.vstr "st")]
          (.dictIn [("name", Value.vstr "b"), ("bogus", Value.vint 7)]) true (.ok ()) =
        .ok ((if true then session_commit (session_add ⟨[], []⟩ (.vobj none (some new_obj)))
              else session_add ⟨[], []⟩ (.vobj none (some new_obj))), new_obj)
      ∧ new_obj.map Prod.fst =
          ([("id", Value.vint 1), ("name", Value.vstr "a"),
            ("_sa_instance_state", Value.vstr "st")] : List (String × Value)).map Prod.fst
      ∧ (∀ k, (startswith_sa k = false
            ∧ k ∈ ([("id", Value.vint 1), ("name", Value.vstr "a"),
                ("_sa_instance_state", Value.vstr "st")] : List (String × Value)).map Prod.fst
            ∧ (([("name", Value.vstr "b"), ("bogus", Value.vint 7)] :
                List (String × Value)).lookup k).isSome) →
          new_obj.lookup k = ([("name", Value.vstr "b"), ("bogus", Value.vint 7)] :
            List (String × Value)).lookup k)
      ∧ (∀ k, ¬ (startswith_sa k = false
            ∧ k ∈ ([("id", Value.vint 1), ("name", Value.vstr "a"),
                ("_sa_instance_state", Value.vstr "st")] : List (String × Value)).map Prod.fst
            ∧ (([("name", Value.vstr "b"), ("bogus", Value.vint 7)] :
                List (String × Value)).lookup k).isSome) →
          new_obj.lookup k = ([("id", Value.vint 1), ("name", Value.vstr "a"),
            ("_sa_instance_state", Value.vstr "st")] : List (String × Value)).lookup k) := by
  have he : encode_entity [("id", Value.vint 1), ("name", Value.vstr "a"),
      ("_sa_instance_state", Value.vstr "st")]
      = .ok [("id", Value.vint 1), ("name", Value.vstr "a")] := by
    simp +decide [encode_entity, str_dict_encoder, allowed_str_keys_of, startswith_sa,
      jsonable_encoder]
    rfl
  exact ⟨he, c10_update_dict_ignores_unknown_keys ⟨[], []⟩ _ _ true _ he⟩

/-- C3 (witness for the amended theorem): concrete instance — a record with
fields `{name: "b", x: 5}` of which only `name` was explicitly set applies
exactly `name` to the entity `{id: 1, name: "a"}`. -/
theorem c3_update_payload_application_witness :
    encode_entity [("id", Value.vint 1), ("name", Value.vstr "a"),
        ("_sa_instance_state", Value.vstr "st")]
      = .ok [("id", Value.vint 1), ("name", Value.vstr "a")]
    ∧ ((∀ (fs : List (String × Value)) (fset : List String),
        update_data_of (.schemaIn fs fset) = fs.filter (fun q => decide (q.1 ∈ fset)))
      ∧ ∃ new_obj,
        DAOBase.update ⟨[], []⟩
            [("id", Value.vint 1), ("name", Value.vstr "a"),
              ("_sa_instance_state", Value.vstr "st")]
            (.schemaIn [("name", Value.vstr "b"), ("x", Value.vint 5)] ["name"]) false
            (.ok ()) =
          .ok ((if false then session_commit (session_add ⟨[], []⟩ (.vobj none (some new_obj)))
                else session_add ⟨[], []⟩ (.vobj none (some new_obj))), new_obj)
        ∧ new_obj.map Prod.fst =
            ([("id", Value.vint 1), ("name", Value.vstr "a"),
              ("_sa_instance_state", Value.vstr "st")] : List (String × Value)).map Prod.fst
        ∧ ∀ k, new_obj.lookup k =
            if startswith_sa k = false
                ∧ k ∈ ([("id", Value.vint 1), ("name", Value.vstr "a"),
                    ("_sa_instance_state", Value.vstr "st")] :
                    List (String × Value)).map Prod.fst
                ∧ ((update_data_of (.schemaIn [("name", Value.vstr "b"), ("x", Value.vint 5)]
                    ["name"])).lookup k).isSome
            then (update_data_of (.schemaIn [("name", Value.vstr "b"), ("x", Value.vint 5)]
                ["name"])).lookup k
            else ([("id", Value.vint 1), ("name", Value.vstr "a"),
              ("_sa_instance_state", Value.vstr "st")] : List (String × Value)).lookup k) := by
  have he : encode_entity [("id", Value.vint 1), ("name", Value.vstr "a"),
      ("_sa_instance_state", Value.vstr "st")]
      = .ok [("id", Value.vint 1), ("name", Value.vstr "a")] := by
    simp +decide [encode_entity, str_dict_encoder, allowed_str_keys_of, startswith_sa,
      jsonable_encoder]
    rfl
  exact ⟨he, c3_update_payload_application ⟨[], []⟩ _ _ false _ he⟩

/-- C9 (witness for the amended theorem): concrete instance — updating
`{id: 1, name: "a"}` with `{name: "b"}` (no `id` key) leaves the identifier
untouched, and the column default behaviour at creation. -/
theorem c9_id_reassigned_only_by_id_payload_witness :
    encode_entity [("id", Value.vint 1), ("name", Value.vstr "a")]
      = .ok [("id", Value.vint 1), ("name", Value.vstr "a")]
    ∧ (update_data_of (.dictIn [("name", Value.vstr "b")])).lookup "id" = none
    ∧ ((∃ new_obj, DAOBase.update ⟨[], []⟩ [("id", Value.vint 1), ("name", Value.vstr "a")]
          (.dictIn [("name", Value.vstr "b")]) false (.ok ()) =
          .ok ((if false then session_commit (session_add ⟨[], []⟩
                  (.vobj none (some new_obj)))
                else session_add ⟨[], []⟩ (.vobj none (some new_obj))), new_obj)
        ∧ new_obj.lookup "id" = ([("id", Value.vint 1), ("name", Value.vstr "a")] :
            List (String × Value)).lookup "id")
      ∧ (∀ (fresh : Value) (e : List (String × Value)),
          (apply_id_default fresh e).lookup "id" = some ((e.lookup "id").getD fresh))) := by
  have he : encode_entity [("id", Value.vint 1), ("name", Value.vstr "a")]
      = .ok [("id", Value.vint 1), ("name", Value.vstr "a")] := by
    simp +decide [encode_entity, str_dict_encoder, allowed_str_keys_of, startswith_sa,
      jsonable_encoder]
    rfl
  exact ⟨he, rfl, c9_id_reassigned_only_by_id_payload ⟨[], []⟩ _ _ false _ he rfl⟩
